import Mathlib

/-!
Verification of the moon-rover backend server (Node/Express + socket.io).

The development shallowly embeds the server's state and handlers:
JavaScript objects with a fixed field set become Lean structures, JS
numbers become `ℚ` (they are only moved around, never computed with),
JS truthiness of an optional marker field becomes a `Bool`, nullable
values become `Option`, and each event handler becomes a pure function
from the pre-state (and the inbound payload) to the post-state together
with the list of messages it emits.
-/

/-- A 3-axis acceleration vector, as stored in `latestSensorData.acceleration`. -/
structure Accel where
  x : ℚ
  y : ℚ
  z : ℚ
  deriving DecidableEq, Repr

/-- GPS coordinate pair, as stored in `latestSensorData.gpsCoordinates`. -/
structure Gps where
  latitude : ℚ
  longitude : ℚ
  deriving DecidableEq, Repr

/-- The canonical telemetry snapshot held in the server's
`latestSensorData` variable (server.js, the in-memory store). -/
structure Snapshot where
  roverId : String
  lastUpdate : ℚ
  status : String
  temperature : ℚ
  humidity : ℚ
  airPressure : ℚ
  batteryLevel : ℚ
  gpsCoordinates : Gps
  acceleration : Accel
  distanceSensor : ℚ
  lightLevel : ℚ
  connectionStatus : String
  deriving DecidableEq, Repr

/-- The initial `latestSensorData` value of server.js (the AI+car-control
revision): inactive defaults, battery 100, disconnected. -/
def initialSensorData : Snapshot :=
  { roverId := "ROVER-001"
    lastUpdate := 0
    status := "inactive"
    temperature := 0
    humidity := 0
    airPressure := 0
    batteryLevel := 100
    gpsCoordinates := { latitude := 22189/1000, longitude := 1141037/10000 }
    acceleration := { x := 0, y := 0, z := 0 }
    distanceSensor := 0
    lightLevel := 0
    connectionStatus := "disconnected" }

/-- The `environmental` sub-object of a nested Pi packet.  `error` is the
JS truthiness of the embedded error marker (`environmental.error`). -/
structure EnvData where
  error : Bool
  temperature : ℚ
  humidity : ℚ
  pressure : ℚ
  deriving DecidableEq, Repr

/-- The `motion.accelerometer` sub-object of a nested Pi packet. -/
structure Accelerometer where
  x : ℚ
  y : ℚ
  z : ℚ
  deriving DecidableEq, Repr

/-- The `motion` sub-object of a nested Pi packet.  `error` is the JS
truthiness of the embedded error marker (`motion.error`). -/
structure MotionData where
  error : Bool
  accelerometer : Accelerometer
  deriving DecidableEq, Repr

/-- A nested-shape raw ingest packet as received on the `sensorData`
socket event.  `device_id` is `none` when the field is absent
(undefined); the empty string models the remaining falsy string. -/
structure RawPacket where
  device_id : Option String
  timestamp : ℚ
  environmental : Option EnvData
  motion : Option MotionData
  deriving DecidableEq, Repr

/-- JS truthiness of `dataFromPi.device_id`: absent or empty is falsy. -/
def idTruthy : Option String → Bool
  | none => false
  | some s => !(s == "")

/-- Messages the server emits over socket.io. -/
inductive Msg where
  | sensorUpdate (s : Snapshot)
  | carStatusUpdate
  | carControlMsg (cmd : String) (t : ℚ)
  deriving DecidableEq, Repr

/-- A message delivered to one connected socket. -/
structure Delivery where
  target : String
  msg : Msg
  deriving DecidableEq, Repr

/-- The `socket.on('sensorData')` handler (server.js).  Input is the
payload (`none` models a null/undefined `dataFromPi`), plus the current
`latestSensorData` and the list of connected socket ids (`io.emit`
delivers to all of them).  Returns the new `latestSensorData` and the
emitted deliveries; a rejected packet returns the state unchanged and
emits nothing. -/
def handleSensorData (input : Option RawPacket) (cur : Snapshot)
    (clients : List String) : Snapshot × List Delivery :=
  match input with
  | none => (cur, [])
  | some p =>
    if idTruthy p.device_id = false then (cur, [])
    else
      let flattenedData : Snapshot :=
        { roverId := p.device_id.getD ""
          lastUpdate := p.timestamp
          status := "active"
          temperature :=
            match p.environmental with
            | some e => if e.error then cur.temperature else e.temperature
            | none => cur.temperature
          humidity :=
            match p.environmental with
            | some e => if e.error then cur.humidity else e.humidity
            | none => cur.humidity
          airPressure :=
            match p.environmental with
            | some e => if e.error then cur.airPressure else e.pressure
            | none => cur.airPressure
          batteryLevel := cur.batteryLevel
          gpsCoordinates := cur.gpsCoordinates
          distanceSensor := cur.distanceSensor
          lightLevel := cur.lightLevel
          acceleration :=
            match p.motion with
            | some m =>
              if m.error then cur.acceleration
              else { x := m.accelerometer.x, y := m.accelerometer.y,
                     z := m.accelerometer.z }
            | none => cur.acceleration
          connectionStatus := "connected" }
      (flattenedData, clients.map (fun c => ⟨c, .sensorUpdate flattenedData⟩))

/-- C1: an inbound `sensorData` packet that is null/undefined or lacks a
truthy `device_id` leaves `latestSensorData` unchanged and emits no
`sensorUpdate` broadcast. -/
theorem c1_reject_missing_id (input : Option RawPacket) (cur : Snapshot)
    (clients : List String)
    (h : input = none ∨ ∃ p, input = some p ∧ idTruthy p.device_id = false) :
    handleSensorData input cur clients = (cur, []) := by
  rcases h with h | ⟨p, hp, hid⟩
  · subst h; rfl
  · subst hp
    simp [handleSensorData, hid]

/-- Witness for C1 at a concrete malformed packet (device_id absent). -/
theorem c1_reject_missing_id_witness :
    handleSensorData
      (some { device_id := none, timestamp := 0,
              environmental := none, motion := none })
      initialSensorData ["a", "b"] = (initialSensorData, []) :=
  c1_reject_missing_id _ _ _ (Or.inr ⟨_, rfl, rfl⟩)

/-- C2: for an accepted nested packet whose `environmental.error` marker
is set, the installed snapshot keeps the current temperature, humidity
and airPressure; symmetrically, when `motion.error` is set the
acceleration vector is kept. -/
theorem c2_error_marker_fallback (p : RawPacket) (cur : Snapshot)
    (clients : List String) (e : EnvData)
    (henv : p.environmental = some e) (herr : e.error = true) :
    let res := (handleSensorData (some p) cur clients).1
    res.temperature = cur.temperature ∧ res.humidity = cur.humidity ∧
      res.airPressure = cur.airPressure ∧
      (∀ m, p.motion = some m → m.error = true →
        res.acceleration = cur.acceleration) := by
  intro res
  by_cases hid : idTruthy p.device_id = false
  · simp only [res, handleSensorData, hid, if_pos rfl]
    refine ⟨rfl, rfl, rfl, fun m hm hme => rfl⟩
  · rw [Bool.not_eq_false] at hid
    constructor
    · simp [res, handleSensorData, hid, henv, herr]
    constructor
    · simp [res, handleSensorData, hid, henv, herr]
    constructor
    · simp [res, handleSensorData, hid, henv, herr]
    · intro m hm hme
      simp [res, handleSensorData, hid, henv, herr, hm, hme]

/-- Witness for C2 at a concrete packet carrying both error markers and
distinct sensor values that must be ignored. -/
theorem c2_error_marker_fallback_witness :
    let p : RawPacket :=
      { device_id := some "pi-1", timestamp := 5,
        environmental := some { error := true, temperature := 99,
                                humidity := 98, pressure := 97 },
        motion := some { error := true,
                         accelerometer := { x := 7, y := 8, z := 9 } } }
    let res := (handleSensorData (some p) initialSensorData ["a"]).1
    res.temperature = initialSensorData.temperature ∧
      res.humidity = initialSensorData.humidity ∧
      res.airPressure = initialSensorData.airPressure ∧
      res.acceleration = initialSensorData.acceleration := by
  intro p res
  have h := c2_error_marker_fallback p initialSensorData ["a"]
    { error := true, temperature := 99, humidity := 98, pressure := 97 }
    rfl rfl
  exact ⟨h.1, h.2.1, h.2.2.1, h.2.2.2 _ rfl rfl⟩

/-- A registered car entry as stored in the `connectedCars` map: the
registration info spread together with `socketId`, `connectedAt` and
`lastSeen` (server.js `socket.on('registerCar')`). -/
structure CarReg where
  socketId : String
  carId : Option String
  connectedAt : ℚ
  lastSeen : ℚ
  carStatus : Option String
  deriving DecidableEq, Repr

/-- The `carControlStatus` record of server.js. -/
structure CarControlStatus where
  totalCars : Nat
  activeCars : Nat
  lastCommand : Option String
  lastCommandTime : Option ℚ
  deriving DecidableEq, Repr

/-- Result of `POST /api/car/control`: a 400 invalid-command response, or
a success response reporting the number of connected cars notified. -/
inductive ControlResult where
  | invalid
  | ok (count : Nat) (cmd : String)
  deriving DecidableEq, Repr

/-- The fixed command set accepted by `POST /api/car/control`; the
source names them f(forward), b(backward), l(left), r(right), s(stop),
q(quit). -/
def validCommands : List String := ["f", "b", "l", "r", "s", "q"]

/-- JS-side validity test `command && ['f','b','l','r','s','q'].includes(command)`:
an absent command is falsy, otherwise membership in the fixed set (the
falsy empty string is not a member either way). -/
def cmdValid : Option String → Bool
  | none => false
  | some c => decide (c ∈ validCommands)

/-- The `POST /api/car/control` handler (server.js).  On a valid command
it updates `carControlStatus.lastCommand`/`lastCommandTime`, emits
`carControl {command, timestamp}` to every connected socket via
`io.emit`, and answers with the `connectedCars.size` count; otherwise it
answers 400 and changes nothing. -/
def carControlDispatch (cmd : Option String) (now : ℚ)
    (st : CarControlStatus) (connectedCars : List (String × CarReg))
    (clients : List String) :
    CarControlStatus × List Delivery × ControlResult :=
  match cmd with
  | none => (st, [], .invalid)
  | some c =>
    if c ∈ validCommands then
      ({ st with lastCommand := some c, lastCommandTime := some now },
       clients.map (fun cl => ⟨cl, .carControlMsg c now⟩),
       .ok connectedCars.length c)
    else (st, [], .invalid)

/-- C4: dispatch rejects (400, no state change) unless the command is in
the fixed set; on success it updates the last-command state, pushes the
command plus timestamp to every registered car that is connected, and
reports the count of registered cars. -/
theorem c4_command_dispatch (cmd : Option String) (now : ℚ)
    (st : CarControlStatus) (cars : List (String × CarReg))
    (clients : List String) :
    (cmdValid cmd = false →
      carControlDispatch cmd now st cars clients = (st, [], .invalid)) ∧
    (∀ c, cmd = some c → c ∈ validCommands →
      (carControlDispatch cmd now st cars clients).1 =
        { st with lastCommand := some c, lastCommandTime := some now } ∧
      (∀ e ∈ cars, e.1 ∈ clients →
        (⟨e.1, .carControlMsg c now⟩ : Delivery) ∈
          (carControlDispatch cmd now st cars clients).2.1) ∧
      (carControlDispatch cmd now st cars clients).2.2 =
        .ok cars.length c) := by
  constructor
  · intro hv
    match cmd with
    | none => rfl
    | some c =>
      simp only [cmdValid, decide_eq_false_iff_not] at hv
      simp [carControlDispatch, hv]
  · rintro c rfl hc
    refine ⟨by simp [carControlDispatch, hc], ?_, by simp [carControlDispatch, hc]⟩
    intro e _ hcl
    simp only [carControlDispatch, if_pos hc]
    exact List.mem_map_of_mem
      (fun cl => ({ target := cl, msg := Msg.carControlMsg c now } : Delivery)) hcl

/-- Witness for C4: `"f"` succeeds and reaches the registered car,
`"x"` fails and leaves the status unchanged. -/
theorem c4_command_dispatch_witness :
    let st : CarControlStatus :=
      { totalCars := 1, activeCars := 1, lastCommand := none,
        lastCommandTime := none }
    let car : CarReg :=
      { socketId := "s1", carId := some "car1", connectedAt := 0,
        lastSeen := 0, carStatus := none }
    (carControlDispatch (some "x") 3 st [("s1", car)] ["s1", "s2"] =
      (st, [], .invalid)) ∧
    (carControlDispatch (some "f") 3 st [("s1", car)] ["s1", "s2"]).1 =
      { st with lastCommand := some "f", lastCommandTime := some 3 } ∧
    (⟨"s1", .carControlMsg "f" 3⟩ : Delivery) ∈
      (carControlDispatch (some "f") 3 st [("s1", car)] ["s1", "s2"]).2.1 ∧
    (carControlDispatch (some "f") 3 st [("s1", car)] ["s1", "s2"]).2.2 =
      .ok 1 "f" := by
  intro st car
  have hbad := (c4_command_dispatch (some "x") 3 st [("s1", car)] ["s1", "s2"]).1
    (by decide)
  have hgood := (c4_command_dispatch (some "f") 3 st [("s1", car)] ["s1", "s2"]).2
    "f" rfl (by decide)
  exact ⟨hbad, hgood.1, hgood.2.1 ("s1", car) (by simp) (by simp), hgood.2.2⟩

/-- JS `connectedCars.has(socket.id)` on the socketId-keyed map. -/
def hasCar (sid : String) (cars : List (String × CarReg)) : Bool :=
  cars.any (fun e => e.1 == sid)

/-- JS `connectedCars.delete(socket.id)`: a `Map` holds at most one entry
per key, so deletion removes every entry with that key. -/
def removeCar (sid : String) (cars : List (String × CarReg)) :
    List (String × CarReg) :=
  cars.filter (fun e => !(e.1 == sid))

/-- Registry state touched by the `socket.on('disconnect')` handler. -/
structure CarState where
  connectedCars : List (String × CarReg)
  status : CarControlStatus
  deriving DecidableEq, Repr

/-- The `socket.on('disconnect')` handler (server.js): when the socket
was a registered car it is deleted from `connectedCars`, the counts are
recomputed from the map size, and a `carStatusUpdate` is broadcast;
otherwise nothing changes. -/
def handleDisconnect (sid : String) (s : CarState) (clients : List String) :
    CarState × List Delivery :=
  if hasCar sid s.connectedCars then
    let remaining := removeCar sid s.connectedCars
    ({ connectedCars := remaining,
       status := { s.status with
         totalCars := remaining.length,
         activeCars := remaining.length } },
     clients.map (fun cl => ⟨cl, .carStatusUpdate⟩))
  else (s, [])

/-- The MJPEG consumer close handler (`GET /api/video-mjpeg` in the
video-relay revision): `mjpegClients = mjpegClients.filter(c => c !== res)`.
Response objects are identified by a numeric id. -/
def removeMjpegClient (resId : Nat) (clients : List Nat) : List Nat :=
  clients.filter (fun c => !(c == resId))

theorem hasCar_removeCar (sid : String) (cars : List (String × CarReg)) :
    hasCar sid (removeCar sid cars) = false := by
  simp only [hasCar, removeCar, List.any_eq_false]
  intro e he
  have h2 := List.of_mem_filter he
  simpa using h2

theorem disconnect_absent (sid : String) (t : CarState)
    (clients : List String) (ht : hasCar sid t.connectedCars = false) :
    handleDisconnect sid t clients = (t, []) := by
  simp [handleDisconnect, ht]

/-- C5: removal of a producer/consumer is idempotent.  A second
disconnect of the same socket id is a no-op (same registry state, no
broadcast, hence unchanged membership count), a disconnect of an id not
in the registry changes nothing, and the MJPEG close-handler removal
behaves the same on the multipart consumer list. -/
theorem c5_removal_idempotent (sid : String) (s : CarState)
    (clients : List String) (resId : Nat) (mj : List Nat) :
    (∀ t : CarState,
      handleDisconnect sid (handleDisconnect sid t clients).1 clients =
        ((handleDisconnect sid t clients).1, []) ∧
      (handleDisconnect sid (handleDisconnect sid t clients).1 clients).1.connectedCars.length =
        (handleDisconnect sid t clients).1.connectedCars.length) ∧
    (hasCar sid s.connectedCars = false →
      handleDisconnect sid s clients = (s, [])) ∧
    removeMjpegClient resId (removeMjpegClient resId mj) =
      removeMjpegClient resId mj := by
  have after : ∀ t : CarState,
      hasCar sid (handleDisconnect sid t clients).1.connectedCars = false := by
    intro t
    by_cases h : hasCar sid t.connectedCars = true
    · simp only [handleDisconnect, if_pos h]
      exact hasCar_removeCar sid t.connectedCars
    · have h' : hasCar sid t.connectedCars = false := by simpa using h
      rw [disconnect_absent sid t clients h']
      exact h'
  refine ⟨?_, disconnect_absent sid s clients, ?_⟩
  · intro t
    have hstep := disconnect_absent sid _ clients (after t)
    exact ⟨hstep, by rw [hstep]⟩
  · simp [removeMjpegClient, List.filter_filter]

/-- Witness for C5: a registry with one car `s1`; removing the unknown
id `ghost` is a no-op, a second disconnect of `s1` is a no-op with the
count unchanged, and double MJPEG removal matches single removal. -/
theorem c5_removal_idempotent_witness :
    let car : CarReg :=
      { socketId := "s1", carId := some "car1", connectedAt := 0,
        lastSeen := 0, carStatus := none }
    let s : CarState :=
      { connectedCars := [("s1", car)],
        status := { totalCars := 1, activeCars := 1, lastCommand := none,
                    lastCommandTime := none } }
    handleDisconnect "ghost" s ["s1"] = (s, []) ∧
    removeMjpegClient 7 (removeMjpegClient 7 [1, 7, 3]) =
      removeMjpegClient 7 [1, 7, 3] ∧
    handleDisconnect "s1" (handleDisconnect "s1" s ["s1"]).1 ["s1"] =
      ((handleDisconnect "s1" s ["s1"]).1, []) := by
  intro car s
  have h := c5_removal_idempotent "ghost" s ["s1"] 7 [1, 7, 3]
  have h2 := c5_removal_idempotent "s1" s ["s1"] 7 [1, 7, 3]
  exact ⟨h.2.1 (by decide), h.2.2, (h2.1 s).1⟩

/-- An untyped JSON leaf value, for the legacy `POST /api/sensors` body
whose shape the handler never inspects. -/
inductive JVal where
  | vnum (q : ℚ)
  | vstr (s : String)
  | vbool (b : Bool)
  | vnull
  deriving DecidableEq, Repr

/-- A JS object viewed extensionally: each property name maps to a value
or to `none` when the property is absent. -/
def JsObj : Type := String → Option JVal

/-- The legacy `POST /api/sensors` handler's state update (server.js):
`latestSensorData = { ...req.body, lastUpdate: new Date(), status:
"active", connectionStatus: "connected" }`.  The spread copies exactly
the body's own properties; the three literals override them; the
previous `latestSensorData` is not consulted at all. -/
def legacyIngest (body : JsObj) (now : JVal) : JsObj :=
  fun k =>
    if k = "lastUpdate" then some now
    else if k = "status" then some (.vstr "active")
    else if k = "connectionStatus" then some (.vstr "connected")
    else body k

/-- C10: the snapshot installed by the legacy ingest path is exactly the
request body overlaid with a fresh `lastUpdate`, `status := "active"`
and `connectionStatus := "connected"`; every other property equals the
body's (so a canonical field absent from the body is absent from the new
snapshot — wholesale replacement, no fallback to prior values). -/
theorem c10_legacy_wholesale_replace (body : JsObj) (now : JVal)
    (k : String) (hk1 : k ≠ "lastUpdate") (hk2 : k ≠ "status")
    (hk3 : k ≠ "connectionStatus") :
    legacyIngest body now "lastUpdate" = some now ∧
    legacyIngest body now "status" = some (.vstr "active") ∧
    legacyIngest body now "connectionStatus" = some (.vstr "connected") ∧
    legacyIngest body now k = body k := by
  refine ⟨rfl, rfl, rfl, ?_⟩
  simp [legacyIngest, hk1, hk2, hk3]

/-- Witness for C10: a body that only carries a temperature; the
installed snapshot has no `batteryLevel` (and keeps the body's
temperature), while the three overlay fields are set. -/
theorem c10_legacy_wholesale_replace_witness :
    let body : JsObj := fun k => if k = "temperature" then
      some (.vnum 21) else none
    legacyIngest body (.vnum 7) "lastUpdate" = some (.vnum 7) ∧
    legacyIngest body (.vnum 7) "status" = some (.vstr "active") ∧
    legacyIngest body (.vnum 7) "connectionStatus" =
      some (.vstr "connected") ∧
    legacyIngest body (.vnum 7) "batteryLevel" = none ∧
    legacyIngest body (.vnum 7) "temperature" = some (.vnum 21) := by
  intro body
  have h1 := c10_legacy_wholesale_replace body (.vnum 7) "batteryLevel"
    (by decide) (by decide) (by decide)
  have h2 := c10_legacy_wholesale_replace body (.vnum 7) "temperature"
    (by decide) (by decide) (by decide)
  exact ⟨h1.1, h1.2.1, h1.2.2.1, h1.2.2.2, h2.2.2.2⟩

/-- The Gemini part produced by `fileToGenerativePart`: the base64
payload and the MIME type (`inlineData.data` / `inlineData.mimeType`). -/
structure GenPart where
  data : String
  mimeType : String
  deriving DecidableEq, Repr

/-- The literal `data:` scheme at the start of the regex
`^data:(.+);base64,(.+)$`. -/
def dataScheme : List Char := "data:".toList

/-- The literal separator `;base64,` between the two capture groups. -/
def sepB64 : List Char := ";base64,".toList

/-- Line terminators, which the JS regex `.` never matches. -/
def isLineTerm (c : Char) : Bool :=
  c == '\n' || c == '\r' || c.toNat == 0x2028 || c.toNat == 0x2029

/-- All decompositions `l = a ++ sep ++ b`, listed with `a` of
increasing length (so the last entry is the greedy match of the first
capture group). -/
def sepSplits (sep : List Char) : List Char → List (List Char × List Char)
  | [] => []
  | c :: rest =>
    (if sep.isPrefixOf (c :: rest) then [([], (c :: rest).drop sep.length)]
     else []) ++
    (sepSplits sep rest).map (fun ab => (c :: ab.1, ab.2))

/-- A split is accepted by the regex when both capture groups are
nonempty (`.+`) and neither contains a line terminator (`.`). -/
def validSplit (ab : List Char × List Char) : Bool :=
  decide (ab.1 ≠ []) && decide (ab.2 ≠ []) &&
    !(ab.1.any isLineTerm) && !(ab.2.any isLineTerm)

/-- The `fileToGenerativePart` helper (server.js): matches the data URL
against `^data:(.+);base64,(.+)$` (greedy first group = last valid
split) and returns the payload and MIME type; `none` models the thrown
invalid-format error. -/
def fileToGenerativePart (dataUrl : String) : Option GenPart :=
  let cs := dataUrl.toList
  if dataScheme.isPrefixOf cs then
    match ((sepSplits sepB64 (cs.drop dataScheme.length)).filter
        validSplit).getLast? with
    | some ab => some { data := String.mk ab.2, mimeType := String.mk ab.1 }
    | none => none
  else none

/-- Spec-side pattern: the input has the shape
`data:<mime>;base64,<payload>` with nonempty mime and payload.  This
follows the claim's wording and deliberately omits the regex's
line-terminator restriction, which only makes the code reject more. -/
def matchesDataUrlPattern (s : String) : Bool :=
  dataScheme.isPrefixOf s.toList &&
    (sepSplits sepB64 (s.toList.drop dataScheme.length)).any
      (fun ab => decide (ab.1 ≠ []) && decide (ab.2 ≠ []))

/-- C7: `data:image/jpeg;base64,AAAA` parses to MIME `image/jpeg` and
payload `AAAA`, and every input that does not have the shape
`data:<mime>;base64,<payload>` is rejected with the invalid-format
error instead of producing a part. -/
theorem c7_data_url_parser_correct :
    fileToGenerativePart "data:image/jpeg;base64,AAAA" =
      some { data := "AAAA", mimeType := "image/jpeg" } ∧
    ∀ s : String, matchesDataUrlPattern s = false →
      fileToGenerativePart s = none := by
  constructor
  · decide
  · intro s hs
    simp only [matchesDataUrlPattern, Bool.and_eq_false_iff] at hs
    by_cases hp : dataScheme.isPrefixOf s.toList = true
    · have hany : ((sepSplits sepB64 (s.toList.drop dataScheme.length)).any
          (fun ab => decide (ab.1 ≠ []) && decide (ab.2 ≠ []))) = false := by
        rcases hs with h | h
        · rw [hp] at h; cases h
        · exact h
      have hnil : (sepSplits sepB64 (s.toList.drop dataScheme.length)).filter
          validSplit = [] := by
        rw [List.filter_eq_nil_iff]
        intro ab hab hv
        have h2 := List.any_eq_false.mp hany ab hab
        simp only [validSplit, Bool.and_eq_true, decide_eq_true_eq] at hv
        simp only [Bool.and_eq_true, decide_eq_true_eq] at h2
        exact h2 ⟨hv.1.1.1, hv.1.1.2⟩
      simp only [fileToGenerativePart]
      rw [if_pos hp, hnil]
      rfl
    · simp only [fileToGenerativePart]
      rw [if_neg hp]

/-- Witness for C7 at a concrete non-matching input. -/
theorem c7_data_url_parser_correct_witness :
    fileToGenerativePart "hello" = none ∧
    fileToGenerativePart "data:image/jpeg;base64,AAAA" =
      some { data := "AAAA", mimeType := "image/jpeg" } :=
  ⟨c7_data_url_parser_correct.2 "hello" (by decide),
   c7_data_url_parser_correct.1⟩

/-- An MJPEG consumer as seen by the broadcast loop: its identity and
whether a write to it throws (dead connection). -/
structure MClient where
  id : Nat
  failing : Bool
  deriving DecidableEq, Repr

/-- One pass of `mjpegClients.forEach((client, index) => ...)` in the
`POST /api/video-mjpeg` handler.  `Array.prototype.forEach` captures the
length before iterating (the fuel), visits ascending indices of the
live array, and skips an index that no longer exists; a write failure at
index `k` runs `mjpegClients.splice(k, 1)` and iteration continues at
`k + 1` over the mutated array.  Returns the final client array and the
ids that received the complete frame. -/
def mjpegForEach : Nat → List MClient → Nat → List MClient × List Nat
  | 0, arr, _ => (arr, [])
  | fuel + 1, arr, k =>
    match arr[k]? with
    | none => mjpegForEach fuel arr (k + 1)
    | some c =>
      if c.failing then
        mjpegForEach fuel (arr.eraseIdx k) (k + 1)
      else
        let r := mjpegForEach fuel arr (k + 1)
        (r.1, c.id :: r.2)

/-- The frame broadcast loop over the registered MJPEG consumers. -/
def mjpegBroadcast (clients : List MClient) : List MClient × List Nat :=
  mjpegForEach clients.length clients 0

/-- C3 (refuting the claim as stated): broadcasting to consumers
#1, #2, #3 where #2's write fails removes exactly #2 from the registry,
but the frame is delivered only to #1 — after `splice(1, 1)` the array
is `[#1, #3]` and the loop's next index 2 no longer exists, so #3 is
skipped, contrary to isolate-and-continue. -/
theorem c3_broadcast_skips_after_splice :
    mjpegBroadcast [{ id := 1, failing := false },
                    { id := 2, failing := true },
                    { id := 3, failing := false }] =
      ([{ id := 1, failing := false }, { id := 3, failing := false }],
       [1]) := by
  decide

/-- Byte sequence of an ASCII header string written to a consumer. -/
def strBytes (s : String) : List Nat := s.toList.map Char.toNat

/-- Decimal digit bytes of `n`, as the template literal
`${frameData.length}` renders a nonnegative integer: big-endian decimal
digits as ASCII. -/
def natDecimalBytes (n : Nat) : List Nat :=
  if n = 0 then [48] else (Nat.digits 10 n).reverse.map (fun d => d + 48)

/-- The five writes the `POST /api/video-mjpeg` handler performs per
consumer and per frame, in order: boundary line, content-type line,
content-length line plus blank line (one template literal), the raw
frame bytes, a trailing CRLF. -/
def mjpegClientWrites (frame : List Nat) : List (List Nat) :=
  [ strBytes "--myboundary\r\n",
    strBytes "Content-Type: image/jpeg\r\n",
    strBytes "Content-Length: " ++ natDecimalBytes frame.length ++
      strBytes "\r\n\r\n",
    frame,
    strBytes "\r\n" ]

/-- The byte stream one consumer receives for one frame. -/
def mjpegStream (frame : List Nat) : List Nat := (mjpegClientWrites frame).flatten

/-- ASCII decimal digit test. -/
def isDigitByte (b : Nat) : Bool := 48 ≤ b && b ≤ 57

/-- Value of a big-endian ASCII decimal numeral. -/
def decimalValue (ds : List Nat) : Nat :=
  ds.foldl (fun acc d => acc * 10 + (d - 48)) 0

/-- Consume an expected literal at the head of the stream. -/
def dropLit (lit : String) (s : List Nat) : Option (List Nat) :=
  if (strBytes lit).isPrefixOf s then some (s.drop (strBytes lit).length)
  else none

/-- Spec-side multipart frame parser: the fixed boundary marker line,
the content-type line, a content-length line whose decimal value is
read, a blank line, exactly that many body bytes, and a trailing CRLF
ending the stream.  Returns the body bytes. -/
def parseMultipartFrame (stream : List Nat) : Option (List Nat) :=
  (dropLit "--myboundary\r\n" stream).bind fun s1 =>
  (dropLit "Content-Type: image/jpeg\r\n" s1).bind fun s2 =>
  (dropLit "Content-Length: " s2).bind fun s3 =>
  let digits := s3.takeWhile isDigitByte
  if digits = [] then none else
  let n := decimalValue digits
  (dropLit "\r\n\r\n" (s3.drop digits.length)).bind fun s4 =>
  if n ≤ s4.length then
    if s4.drop n = strBytes "\r\n" then some (s4.take n) else none
  else none

theorem bytesPrefix_append (p r : List Nat) : p.isPrefixOf (p ++ r) = true := by
  induction p with
  | nil => simp [List.isPrefixOf]
  | cons a as ih => simp [List.isPrefixOf, ih]

theorem dropLit_append (lit : String) (rest : List Nat) :
    dropLit lit (strBytes lit ++ rest) = some rest := by
  rw [dropLit, if_pos (bytesPrefix_append _ _), List.drop_left]

theorem takeWhile_append_nonmatch (p : Nat → Bool) (xs : List Nat) (y : Nat)
    (ys : List Nat) (hxs : ∀ x ∈ xs, p x = true) (hy : p y = false) :
    (xs ++ y :: ys).takeWhile p = xs := by
  induction xs with
  | nil => simp [List.takeWhile_cons, hy]
  | cons a as ih =>
    have ha := hxs a (by simp)
    simp only [List.cons_append, List.takeWhile_cons, ha, if_true]
    rw [ih (fun x hx => hxs x (by simp [hx]))]

theorem decimalValue_ofDigits (L : List Nat) :
    decimalValue (L.reverse.map (fun d => d + 48)) = Nat.ofDigits 10 L := by
  induction L with
  | nil => rfl
  | cons a as ih =>
    simp only [decimalValue, List.reverse_cons, List.map_append, List.map_cons,
      List.map_nil, List.foldl_append, List.foldl_cons, List.foldl_nil] at ih ⊢
    rw [ih, Nat.ofDigits_cons]
    push_cast
    omega

theorem decimalValue_natDecimalBytes (n : Nat) :
    decimalValue (natDecimalBytes n) = n := by
  rw [natDecimalBytes]
  by_cases h : n = 0
  · subst h; rfl
  · rw [if_neg h, decimalValue_ofDigits, Nat.ofDigits_digits]

theorem natDecimalBytes_digits (n : Nat) :
    ∀ b ∈ natDecimalBytes n, isDigitByte b = true := by
  intro b hb
  by_cases h : n = 0
  · subst h
    have hb48 : b = 48 := by simpa [natDecimalBytes] using hb
    subst hb48; rfl
  · rw [natDecimalBytes, if_neg h] at hb
    simp only [List.mem_map, List.mem_reverse] at hb
    obtain ⟨d, hd, rfl⟩ := hb
    have hlt : d < 10 := Nat.digits_lt_base (by norm_num) hd
    simp only [isDigitByte, Bool.and_eq_true, decide_eq_true_eq]
    omega

theorem natDecimalBytes_ne_nil (n : Nat) : natDecimalBytes n ≠ [] := by
  rw [natDecimalBytes]
  by_cases h : n = 0
  · subst h; simp
  · rw [if_neg h]
    simp [h, Nat.digits_ne_nil_iff_ne_zero]

/-- C6: for a frame of N bytes, the byte stream written to a multipart
consumer is exactly the boundary line, the content-type line, a
content-length line whose decimal value equals N, a blank line, the N
raw frame bytes, and a trailing CRLF, in that order: the spec-side
parser recovers precisely the frame, and the content-length numeral
evaluates to N. -/
theorem c6_multipart_framing (frame : List Nat) :
    parseMultipartFrame (mjpegStream frame) = some frame ∧
    decimalValue (natDecimalBytes frame.length) = frame.length := by
  refine ⟨?_, decimalValue_natDecimalBytes frame.length⟩
  have hstream : mjpegStream frame =
      strBytes "--myboundary\r\n" ++
        (strBytes "Content-Type: image/jpeg\r\n" ++
          (strBytes "Content-Length: " ++
            (natDecimalBytes frame.length ++
              ((13 : Nat) :: 10 :: 13 :: 10 :: (frame ++ [13, 10]))))) := by
    have hblank : strBytes "\r\n\r\n" = [13, 10, 13, 10] := rfl
    have hcrlf : strBytes "\r\n" = [13, 10] := rfl
    simp [mjpegStream, mjpegClientWrites, hblank, hcrlf, List.append_assoc]
  rw [parseMultipartFrame, hstream, dropLit_append, Option.some_bind,
    dropLit_append, Option.some_bind, dropLit_append, Option.some_bind]
  rw [takeWhile_append_nonmatch isDigitByte (natDecimalBytes frame.length) 13 _
    (natDecimalBytes_digits frame.length) rfl]
  rw [if_neg (natDecimalBytes_ne_nil frame.length), List.drop_left]
  have hshape : (13 : Nat) :: 10 :: 13 :: 10 :: (frame ++ [13, 10]) =
      strBytes "\r\n\r\n" ++ (frame ++ [13, 10]) := rfl
  rw [hshape, dropLit_append, Option.some_bind,
    decimalValue_natDecimalBytes frame.length]
  have hc : List.drop frame.length (frame ++ [13, 10]) = strBytes "\r\n" := by
    rw [List.drop_left]; rfl
  rw [if_pos (by simp), hc, if_pos rfl, List.take_left]

/-- Supervisor state for the RTMP-to-HLS transcoder: the process handle
`rtmpProcess` (a pid, `none` when the JS variable is null), the
`streamActive` flag, a fresh-pid counter for spawns, and the pids whose
close event has already fired. -/
structure SupState where
  rtmpProcess : Option Nat
  streamActive : Bool
  nextPid : Nat
  exited : List Nat
  deriving DecidableEq, Repr

/-- Response of `POST /api/stream/start`. -/
inductive SupResp where
  | alreadyActive
  | started
  deriving DecidableEq, Repr

/-- `POST /api/stream/start` (video-relay revision): a no-op answering
"Stream already active" while a process handle is live; otherwise it
spawns ffmpeg (modelled as allocating a fresh pid), stores the handle
and sets `streamActive = true`. -/
def supStart (s : SupState) : SupState × SupResp :=
  if s.rtmpProcess.isSome then (s, .alreadyActive)
  else
    ({ rtmpProcess := some s.nextPid, streamActive := true,
       nextPid := s.nextPid + 1, exited := s.exited }, .started)

/-- `POST /api/stream/stop`: kills the process and clears the handle and
flag when live, otherwise does nothing. -/
def supStop (s : SupState) : SupState :=
  match s.rtmpProcess with
  | some _ => { s with rtmpProcess := none, streamActive := false }
  | none => s

/-- The ffmpeg `close` handler: `streamActive = false; rtmpProcess =
null`, with the pid recorded as exited.  A close event can only come
from a pid that was spawned and has not closed yet. -/
def supClose (p : Nat) (s : SupState) : SupState :=
  if p < s.nextPid ∧ p ∉ s.exited then
    { rtmpProcess := none, streamActive := false, nextPid := s.nextPid,
      exited := p :: s.exited }
  else s

/-- An event in the supervisor's life: an operator start or stop
request, or the asynchronous exit of a spawned process. -/
inductive SupEvent where
  | start
  | stop
  | procExit (p : Nat)
  deriving DecidableEq, Repr

def supStep (s : SupState) : SupEvent → SupState
  | .start => (supStart s).1
  | .stop => supStop s
  | .procExit p => supClose p s

/-- Process start state: no process, stream inactive. -/
def supInit : SupState :=
  { rtmpProcess := none, streamActive := false, nextPid := 0, exited := [] }

def supRun (evs : List SupEvent) : SupState := evs.foldl supStep supInit

/-- Invariant: exited pids were spawned, a live handle is a spawned and
not-yet-exited pid, and the active flag implies a live handle. -/
def SupInv (s : SupState) : Prop :=
  (∀ p ∈ s.exited, p < s.nextPid) ∧
  (∀ p, s.rtmpProcess = some p → p < s.nextPid ∧ p ∉ s.exited) ∧
  (s.streamActive = true → s.rtmpProcess.isSome)

theorem supInv_step (s : SupState) (e : SupEvent) (h : SupInv s) :
    SupInv (supStep s e) := by
  obtain ⟨h1, h2, h3⟩ := h
  cases e with
  | start =>
    by_cases hl : s.rtmpProcess.isSome
    · have hstep : supStep s .start = s := by simp [supStep, supStart, hl]
      rw [hstep]; exact ⟨h1, h2, h3⟩
    · have hstep : supStep s .start =
          { rtmpProcess := some s.nextPid, streamActive := true,
            nextPid := s.nextPid + 1, exited := s.exited } := by
        simp [supStep, supStart, hl]
      rw [hstep]
      refine ⟨?_, ?_, ?_⟩
      · intro p hp
        exact Nat.lt_succ_of_lt (h1 p hp)
      · intro p hp
        injection hp with hpe
        subst hpe
        exact ⟨Nat.lt_succ_self _, fun hmem => absurd (h1 _ hmem) (lt_irrefl _)⟩
      · intro _; rfl
  | stop =>
    cases hr : s.rtmpProcess with
    | none =>
      have hstep : supStep s .stop = s := by simp [supStep, supStop, hr]
      rw [hstep]; exact ⟨h1, h2, h3⟩
    | some q =>
      have hstep : supStep s .stop =
          { s with rtmpProcess := none, streamActive := false } := by
        simp [supStep, supStop, hr]
      rw [hstep]
      exact ⟨h1, fun p hp => Option.noConfusion hp,
        fun ha => Bool.noConfusion ha⟩
  | procExit p =>
    by_cases hc : p < s.nextPid ∧ p ∉ s.exited
    · have hstep : supStep s (.procExit p) =
          { rtmpProcess := none, streamActive := false,
            nextPid := s.nextPid, exited := p :: s.exited } := by
        simp [supStep, supClose, hc]
      rw [hstep]
      refine ⟨?_, fun q hq => Option.noConfusion hq,
        fun ha => Bool.noConfusion ha⟩
      intro q hq
      rcases List.mem_cons.mp hq with rfl | hq2
      · exact hc.1
      · exact h1 q hq2
    · have hstep : supStep s (.procExit p) = s := by
        simp [supStep, supClose, hc]
      rw [hstep]; exact ⟨h1, h2, h3⟩

theorem supInv_run (evs : List SupEvent) : SupInv (supRun evs) := by
  have key : ∀ (l : List SupEvent) (s : SupState), SupInv s →
      SupInv (l.foldl supStep s) := by
    intro l
    induction l with
    | nil => intro s hs; exact hs
    | cons e t ih =>
      intro s hs
      exact ih _ (supInv_step s e hs)
  refine key evs supInit ?_
  refine ⟨?_, ?_, ?_⟩ <;> simp [supInit]

/-- C8: after any sequence of start, stop and asynchronous process-exit
events, the active flag implies a live (spawned, not exited) backing
process — it is never true once the backing process has exited;
moreover a start with a live handle is a no-op answering already-active,
and a process's close event clears both the flag and the handle. -/
theorem c8_supervisor_never_active_after_exit (evs : List SupEvent) :
    ((supRun evs).streamActive = true →
      ∃ p, (supRun evs).rtmpProcess = some p ∧ p ∉ (supRun evs).exited) ∧
    (∀ s : SupState, s.rtmpProcess.isSome →
      supStart s = (s, .alreadyActive)) ∧
    (∀ (s : SupState) (p : Nat), p < s.nextPid → p ∉ s.exited →
      (supClose p s).streamActive = false ∧
        (supClose p s).rtmpProcess = none) := by
  obtain ⟨h1, h2, h3⟩ := supInv_run evs
  refine ⟨?_, ?_, ?_⟩
  · intro ha
    obtain ⟨p, hp⟩ := Option.isSome_iff_exists.mp (h3 ha)
    exact ⟨p, hp, (h2 p hp).2⟩
  · intro s hs
    simp [supStart, hs]
  · intro s p hp1 hp2
    constructor <;> simp [supClose, hp1, hp2]

/-- Witness for C8: after a single start the stream is active with a
live process; a second start is a no-op; the close of pid 0 clears the
flag and handle. -/
theorem c8_supervisor_never_active_after_exit_witness :
    (∃ p, (supRun [SupEvent.start]).rtmpProcess = some p ∧
      p ∉ (supRun [SupEvent.start]).exited) ∧
    supStart (supRun [SupEvent.start]) =
      (supRun [SupEvent.start], .alreadyActive) ∧
    (supClose 0 (supRun [SupEvent.start])).streamActive = false ∧
    (supClose 0 (supRun [SupEvent.start])).rtmpProcess = none := by
  have h := c8_supervisor_never_active_after_exit [SupEvent.start]
  refine ⟨h.1 (by decide), h.2.1 _ (by decide),
    (h.2.2 (supRun [SupEvent.start]) 0 (by decide) (by decide)).1,
    (h.2.2 (supRun [SupEvent.start]) 0 (by decide) (by decide)).2⟩

/-- A socket.io event at the server: a new client connection, or an
inbound `sensorData` payload on some socket. -/
inductive SrvEvent where
  | connect (sid : String)
  | sensorData (sid : String) (pkt : Option RawPacket)
  deriving DecidableEq, Repr

/-- The server state the connection handling touches: the current
snapshot and the connected socket ids. -/
structure SrvState where
  latest : Snapshot
  clients : List String
  deriving DecidableEq, Repr

/-- One event step of `io.on('connection')` (server.js): a connecting
socket is registered and immediately — and alone — receives
`sensorUpdate` with the current snapshot followed by `carStatusUpdate`;
an inbound `sensorData` packet runs the ingest handler, whose broadcast
goes to every connected socket. -/
def srvStep (s : SrvState) : SrvEvent → SrvState × List Delivery
  | .connect sid =>
    ({ s with clients := sid :: s.clients },
     [⟨sid, .sensorUpdate s.latest⟩, ⟨sid, .carStatusUpdate⟩])
  | .sensorData _ pkt =>
    let r := handleSensorData pkt s.latest s.clients
    ({ s with latest := r.1 }, r.2)

/-- Run a sequence of events, accumulating the delivery log in order. -/
def srvRun (evs : List SrvEvent) (s : SrvState) : SrvState × List Delivery :=
  match evs with
  | [] => (s, [])
  | e :: t =>
    let r1 := srvStep s e
    let r2 := srvRun t r1.1
    (r2.1, r1.2 ++ r2.2)

/-- Server state at process start: initial snapshot, no clients. -/
def srvInit : SrvState := { latest := initialSensorData, clients := [] }

theorem srvRun_append (l1 l2 : List SrvEvent) (s : SrvState) :
    srvRun (l1 ++ l2) s =
      ((srvRun l2 (srvRun l1 s).1).1,
       (srvRun l1 s).2 ++ (srvRun l2 (srvRun l1 s).1).2) := by
  induction l1 generalizing s with
  | nil => simp [srvRun]
  | cons e t ih =>
    simp only [List.cons_append, srvRun, List.append_eq]
    rw [ih]
    simp [List.append_assoc]

theorem srvStep_clients_mono (s : SrvState) (e : SrvEvent) :
    ∀ c ∈ s.clients, c ∈ (srvStep s e).1.clients := by
  intro c hc
  cases e with
  | connect sid =>
    simp only [srvStep, List.mem_cons]
    exact Or.inr hc
  | sensorData sid pkt => simpa [srvStep] using hc

theorem srvRun_clients_mono (evs : List SrvEvent) (s : SrvState) :
    ∀ c ∈ s.clients, c ∈ (srvRun evs s).1.clients := by
  induction evs generalizing s with
  | nil => intro c hc; simpa [srvRun] using hc
  | cons e t ih =>
    intro c hc
    simp only [srvRun]
    exact ih _ _ (srvStep_clients_mono s e c hc)

theorem handleSensorData_targets (pkt : Option RawPacket) (cur : Snapshot)
    (clients : List String) :
    ∀ d ∈ (handleSensorData pkt cur clients).2, d.target ∈ clients := by
  intro d hd
  cases pkt with
  | none => simp [handleSensorData] at hd
  | some p =>
    by_cases hid : idTruthy p.device_id = false
    · simp [handleSensorData, hid] at hd
    · simp only [handleSensorData, if_neg hid] at hd
      obtain ⟨c, hc, rfl⟩ := List.mem_map.mp hd
      exact hc

theorem srvStep_targets (s : SrvState) (e : SrvEvent) :
    ∀ d ∈ (srvStep s e).2, d.target ∈ (srvStep s e).1.clients := by
  intro d hd
  cases e with
  | connect sid =>
    simp only [srvStep, List.mem_cons] at hd
    rcases hd with rfl | rfl | h
    · simp [srvStep]
    · simp [srvStep]
    · cases h
  | sensorData sid pkt =>
    simp only [srvStep] at hd ⊢
    exact handleSensorData_targets pkt s.latest s.clients d hd

theorem srvRun_targets (evs : List SrvEvent) (s : SrvState) :
    ∀ d ∈ (srvRun evs s).2, d.target ∈ (srvRun evs s).1.clients := by
  induction evs generalizing s with
  | nil => intro d hd; simp [srvRun] at hd
  | cons e t ih =>
    intro d hd
    simp only [srvRun, List.mem_append] at hd
    simp only [srvRun]
    rcases hd with hd | hd
    · exact srvRun_clients_mono t _ _ (srvStep_targets s e d hd)
    · exact ih _ d hd

/-- C9: a consumer connecting while the store holds snapshot S receives,
as its very first messages, `sensorUpdate S` (then `carStatusUpdate`),
before any delivery caused by later events; and the connection-time
push goes only to that consumer. -/
theorem c9_new_consumer_catchup (pre post : List SrvEvent) (sid : String)
    (hfresh : sid ∉ (srvRun pre srvInit).1.clients) :
    (((srvRun (pre ++ .connect sid :: post) srvInit).2.filter
        (fun d => d.target == sid)).take 2 =
      [⟨sid, .sensorUpdate (srvRun pre srvInit).1.latest⟩,
       ⟨sid, .carStatusUpdate⟩]) ∧
    (∀ d ∈ (srvStep (srvRun pre srvInit).1 (.connect sid)).2,
      d.target = sid) := by
  constructor
  · have hpre : (srvRun pre srvInit).2.filter (fun d => d.target == sid) = [] := by
      rw [List.filter_eq_nil_iff]
      intro d hd hdt
      have := srvRun_targets pre srvInit d hd
      rw [beq_iff_eq] at hdt
      exact hfresh (hdt ▸ this)
    rw [srvRun_append]
    simp only [List.filter_append, hpre, List.nil_append]
    have hmid : srvRun (SrvEvent.connect sid :: post) (srvRun pre srvInit).1 =
        (let r1 := srvStep (srvRun pre srvInit).1 (.connect sid)
         let r2 := srvRun post r1.1
         (r2.1, r1.2 ++ r2.2)) := rfl
    rw [hmid]
    simp only [srvStep, List.filter_append]
    rw [List.filter_cons, List.filter_cons]
    simp only [beq_self_eq_true, if_pos rfl, List.filter_nil]
    rfl
  · intro d hd
    simp only [srvStep, List.mem_cons] at hd
    rcases hd with rfl | rfl | h
    · rfl
    · rfl
    · cases h

/-- Witness for C9: starting from the empty trace, a consumer `c1`
connects and a producer update follows; the first two messages `c1`
receives are the initial snapshot push and the car status push. -/
theorem c9_new_consumer_catchup_witness :
    (((srvRun ([] ++ SrvEvent.connect "c1" ::
        [SrvEvent.sensorData "pi" none]) srvInit).2.filter
        (fun d => d.target == "c1")).take 2 =
      [⟨"c1", .sensorUpdate (srvRun [] srvInit).1.latest⟩,
       ⟨"c1", .carStatusUpdate⟩]) :=
  (c9_new_consumer_catchup [] [SrvEvent.sensorData "pi" none] "c1"
    (by simp [srvRun, srvInit])).1
